import Mathlib

/-!
# simple-thread-pool: a step semantics of `thread-pool.go`

The Go program is a pool of worker goroutines fed by a bounded channel.
Its state is embedded as one record `State`: the fields of the Go struct
`ThreadPool` (channels are their capacity, buffered contents and closed flag,
the `sync.WaitGroup` is its counter) together with the goroutines that
operate on it.  Goroutines are anonymous in the source, so they are kept as
counts (workers) or as the list of tasks they carry (submit calls, workers
running a task), each at the program point it has reached.

Every statement of `worker`, `submit` and `Shutdown` that touches shared state
is one `Action`; `step` gives its effect, or `none` when the statement
cannot run in that state.  The Go scheduler may interleave the goroutines in
any order, and a `select` with several ready cases may take any of them, so
the behaviours of the program are the lists of actions accepted by `run`.

Conventions:
* Go `int` is `Int`; the only arithmetic on it is the loop counter of
  `NewThreadPool`, which stays below `corePoolSize`.
* `make(chan T, n)` runs the range check of the Go runtime (`makechanPanics`), with the
  constants of 64-bit Linux; a heap too small for a buffer that passes the check is
  not modelled.
* An unrecovered panic ends the process: `crashed` is set and no further
  action is accepted.
* `Shutdown` is called at most once, as the program expects; the misuse checks of
  `sync.WaitGroup` are not modelled.
-/

namespace ThreadPool

/-- Go `type Task func()`: the pool never looks inside a task; it is identified by a
number. -/
abbrev Task := Nat

/-- Program point of the single caller of `Shutdown` (lines 89-93). -/
inductive ShutdownPc where
  /-- before any call of `Shutdown` -/
  | notCalled
  /-- after `close(p.shutdown)`, at `p.wg.Wait()` -/
  | waiting
  /-- after `p.wg.Wait()`, before `close(p.taskQueue)` -/
  | joined
  /-- after `close(p.taskQueue)`: `Shutdown` has returned -/
  | returned
  deriving DecidableEq

/-- The pool (struct `ThreadPool`, lines 10-18) and the goroutines working on it. -/
structure State where
  /-- field `corePoolSize` -/
  corePoolSize : Int
  /-- field `maxPoolSize` -/
  maxPoolSize : Int
  /-- capacity of channel `taskQueue` -/
  taskQueueCap : Nat
  /-- buffered contents of channel `taskQueue`, oldest first -/
  taskQueue : List Task
  /-- whether `taskQueue` has been closed -/
  taskQueueClosed : Bool
  /-- capacity of channel `workerQueue` -/
  workerQueueCap : Nat
  /-- number of tokens buffered in channel `workerQueue` -/
  workerQueue : Nat
  /-- counter of the wait group `wg` -/
  wg : Int
  /-- whether channel `shutdown` has been closed -/
  shutdown : Bool
  /-- workers at the `select` of line 52 that have not parked -/
  listening : Nat
  /-- workers parked in the `select` of line 52, waiting on both channels -/
  parked : Nat
  /-- tasks being run by a worker at line 58, one worker each -/
  executing : List Task
  /-- workers that have returned from `worker` -/
  terminated : Nat
  /-- submit calls at the outer `select` (line 68) -/
  atOuter : List Task
  /-- submit calls at the inner `select` (line 76) -/
  atInner : List Task
  /-- submit calls holding a permit, at `tp.wg.Add(1)` (line 78) -/
  atAdd : List Task
  /-- submit calls at `go tp.worker()` (line 79) -/
  atGo : List Task
  /-- submit calls at the blocking send `tp.taskQueue <- task` (line 80) -/
  atSend : List Task
  /-- program point of the caller of `Shutdown` -/
  shutdownPc : ShutdownPc
  /-- tasks whose execution has begun (line 58), in order -/
  started : List Task
  /-- tasks rejected at line 83 -/
  rejected : List Task
  /-- an unrecovered panic has ended the process -/
  crashed : Bool
  deriving DecidableEq

/-- Number of workers that have not returned. -/
def live (s : State) : Nat := s.listening + s.parked + s.executing.length

/-- Number of workers ever started by `go tp.worker()`. -/
def spawned (s : State) : Nat := live s + s.terminated

/-- Go runtime constant `maxAlloc`, the largest allocation: `1 << 48` bytes on 64-bit
Linux. -/
def maxAlloc : Nat := 2 ^ 48

/-- Go runtime constant `hchanSize`, the size in bytes of a channel header on a 64-bit
platform. -/
def hchanSize : Nat := 96

/-- Size in bytes of a `Task` value on a 64-bit platform: a `func()` is one pointer. -/
def taskSize : Nat := 8

/-- The range check that the Go runtime (`makechan`) runs for `make(chan T, size)` with
elements of `elemSize` bytes: it panics when `elemSize * size` overflows a 64-bit
`uintptr`, when it exceeds `maxAlloc - hchanSize`, or when `size` is negative. -/
def makechanPanics (elemSize : Nat) (size : Int) : Bool :=
  decide (2 ^ 64 ≤ elemSize * size.toNat ∨ maxAlloc - hchanSize < elemSize * size.toNat ∨
    size < 0)

/-- The value of the struct literal of lines 30-36 once its three channels are made,
before any worker is started. -/
def emptyPool (corePoolSize maxPoolSize queueSize : Int) : State :=
  { corePoolSize := corePoolSize
    maxPoolSize := maxPoolSize
    taskQueueCap := queueSize.toNat
    taskQueue := []
    taskQueueClosed := false
    workerQueueCap := maxPoolSize.toNat
    workerQueue := 0
    wg := 0
    shutdown := false
    listening := 0
    parked := 0
    executing := []
    terminated := 0
    atOuter := []
    atInner := []
    atAdd := []
    atGo := []
    atSend := []
    shutdownPc := ShutdownPc.notCalled
    started := []
    rejected := []
    crashed := false }

/-- The struct literal of lines 30-36: `make(chan Task, queueSize)`, then
`make(chan struct{}, maxPoolSize)` (elements of size zero), then `make(chan struct{})`;
the first `make` that fails its range check panics. -/
def allocate (corePoolSize maxPoolSize queueSize : Int) : Except String State :=
  if makechanPanics taskSize queueSize then Except.error "makechan: size out of range"
  else if makechanPanics 0 maxPoolSize then Except.error "makechan: size out of range"
  else if makechanPanics 0 0 then Except.error "makechan: size out of range"
  else Except.ok (emptyPool corePoolSize maxPoolSize queueSize)

/-- One iteration of the loop of lines 38-43: `tp.wg.Add(1); go tp.worker()`. -/
def startWorker (s : State) : State :=
  { s with wg := s.wg + 1, listening := s.listening + 1 }

/-- The loop `for i := 0; i < corePoolSize; i++` of lines 38-43, run `n` times. -/
def startCore : Nat → State → State
  | 0, s => s
  | n + 1, s => startCore n (startWorker s)

/-- What a call of `NewThreadPool` leaves behind: how many worker goroutines it
launched, and either the panic message or the pool. -/
structure NewResult where
  /-- number of `go tp.worker()` statements executed -/
  launched : Nat
  /-- the panic message, or the pool returned -/
  result : Except String State

/-- Go `NewThreadPool` (lines 21-46). The two panics of the validation and a panic of
`make` in the struct literal all precede the loop; on success the number of launched
workers is read off the pool the loop built. -/
def NewThreadPool (corePoolSize maxPoolSize queueSize : Int) : NewResult :=
  if corePoolSize < 1 ∨ maxPoolSize < 1 ∨ queueSize < 0 then
    ⟨0, Except.error "输入线程数和队列大小不合法"⟩
  else if corePoolSize > maxPoolSize then
    ⟨0, Except.error "核心线程数应小于等于最大线程数"⟩
  else
    match allocate corePoolSize maxPoolSize queueSize with
    | Except.error msg => ⟨0, Except.error msg⟩
    | Except.ok tp0 =>
      let tp := startCore corePoolSize.toNat tp0
      ⟨spawned tp, Except.ok tp⟩

/-- A non-blocking attempt at `tp.taskQueue <- task`, as the Go runtime performs it:
a closed channel panics, a parked receiver is handed the value and starts running
it, otherwise the value goes to a free buffer slot; `none` when the send would block. -/
def chanSend (s : State) (t : Task) : Option State :=
  if s.taskQueueClosed then some { s with crashed := true }
  else if 0 < s.parked then
    some { s with parked := s.parked - 1, executing := t :: s.executing,
                  started := s.started ++ [t] }
  else if s.taskQueue.length < s.taskQueueCap then
    some { s with taskQueue := s.taskQueue ++ [t] }
  else none

/-- The statements of the program that touch shared state. -/
inductive Action where
  /-- a goroutine calls `submit(t)` and reaches line 68 -/
  | callSubmit (t : Task)
  /-- line 70: the outer `select` takes `tp.taskQueue <- task` -/
  | outerSend (t : Task)
  /-- lines 72-73: the outer `select` takes `<-tp.shutdown` and the call returns -/
  | outerShutdown (t : Task)
  /-- line 75: the outer `select` takes `default` -/
  | outerDefault (t : Task)
  /-- line 77: the inner `select` takes `tp.workerQueue <- struct{}{}` -/
  | innerSend (t : Task)
  /-- lines 82-83: the inner `select` takes `default`; the task is rejected -/
  | innerDefault (t : Task)
  /-- line 78: `tp.wg.Add(1)` -/
  | wgAdd (t : Task)
  /-- line 79: `go tp.worker()` -/
  | goWorker (t : Task)
  /-- line 80: the send `tp.taskQueue <- task` completes (or panics) -/
  | send (t : Task)
  /-- lines 54-58: a worker receives the oldest buffered task and runs it -/
  | workerRecv
  /-- lines 54-58 on an unbuffered queue: a worker receives from the call blocked at line 80 -/
  | workerRecvFrom (t : Task)
  /-- lines 54-56: a worker finds the queue closed and empty and returns -/
  | workerClosed
  /-- lines 60-61: a worker takes `<-tp.shutdown` and returns -/
  | workerShutdown
  /-- line 52: no case is ready, the worker parks -/
  | workerPark
  /-- lines 60-61: a parked worker is woken by `close(p.shutdown)` and returns -/
  | parkedShutdown
  /-- lines 54-56: a parked worker is woken by `close(p.taskQueue)` and returns -/
  | parkedClosed
  /-- line 58: `task()` returns and the worker loops -/
  | taskReturn (t : Task)
  /-- line 90: `close(p.shutdown)` -/
  | shutdownSignal
  /-- line 91: `p.wg.Wait()` returns -/
  | shutdownWait
  /-- line 92: `close(p.taskQueue)`; `Shutdown` returns -/
  | shutdownCloseQueue
  deriving DecidableEq

/-- A worker returns: the deferred `tp.wg.Done()` of line 50 runs. -/
def workerExit (s : State) : State :=
  { s with wg := s.wg - 1, terminated := s.terminated + 1 }

/-- Effect of one action, `none` when it cannot run in `s`. -/
def step (s : State) (a : Action) : Option State :=
  if s.crashed then none else
  match a with
  | Action.callSubmit t => some { s with atOuter := t :: s.atOuter }
  | Action.outerSend t =>
      if t ∈ s.atOuter then chanSend { s with atOuter := s.atOuter.erase t } t else none
  | Action.outerShutdown t =>
      if t ∈ s.atOuter ∧ s.shutdown then some { s with atOuter := s.atOuter.erase t }
      else none
  | Action.outerDefault t =>
      if t ∈ s.atOuter ∧ ¬ s.shutdown ∧ chanSend s t = none then
        some { s with atOuter := s.atOuter.erase t, atInner := t :: s.atInner }
      else none
  | Action.innerSend t =>
      if t ∈ s.atInner ∧ s.workerQueue < s.workerQueueCap then
        some { s with atInner := s.atInner.erase t, atAdd := t :: s.atAdd,
                      workerQueue := s.workerQueue + 1 }
      else none
  | Action.innerDefault t =>
      if t ∈ s.atInner ∧ ¬ s.workerQueue < s.workerQueueCap then
        some { s with atInner := s.atInner.erase t, rejected := s.rejected ++ [t] }
      else none
  | Action.wgAdd t =>
      if t ∈ s.atAdd then
        some { s with atAdd := s.atAdd.erase t, atGo := t :: s.atGo, wg := s.wg + 1 }
      else none
  | Action.goWorker t =>
      if t ∈ s.atGo then
        some { s with atGo := s.atGo.erase t, atSend := t :: s.atSend,
                      listening := s.listening + 1 }
      else none
  | Action.send t =>
      if t ∈ s.atSend then chanSend { s with atSend := s.atSend.erase t } t else none
  | Action.workerRecv =>
      if 0 < s.listening then
        match s.taskQueue with
        | [] => none
        | t :: rest =>
            some { s with listening := s.listening - 1, taskQueue := rest,
                          executing := t :: s.executing, started := s.started ++ [t] }
      else none
  | Action.workerRecvFrom t =>
      if 0 < s.listening ∧ t ∈ s.atSend ∧ s.taskQueueCap = 0 ∧ ¬ s.taskQueueClosed then
        some { s with listening := s.listening - 1, atSend := s.atSend.erase t,
                      executing := t :: s.executing, started := s.started ++ [t] }
      else none
  | Action.workerClosed =>
      if 0 < s.listening ∧ s.taskQueueClosed ∧ s.taskQueue = [] then
        some (workerExit { s with listening := s.listening - 1 })
      else none
  | Action.workerShutdown =>
      if 0 < s.listening ∧ s.shutdown then
        some (workerExit { s with listening := s.listening - 1 })
      else none
  | Action.workerPark =>
      if 0 < s.listening ∧ s.taskQueue = [] ∧ ¬ s.taskQueueClosed ∧ ¬ s.shutdown then
        some { s with listening := s.listening - 1, parked := s.parked + 1 }
      else none
  | Action.parkedShutdown =>
      if 0 < s.parked ∧ s.shutdown then
        some (workerExit { s with parked := s.parked - 1 })
      else none
  | Action.parkedClosed =>
      if 0 < s.parked ∧ s.taskQueueClosed then
        some (workerExit { s with parked := s.parked - 1 })
      else none
  | Action.taskReturn t =>
      if t ∈ s.executing then
        some { s with executing := s.executing.erase t, listening := s.listening + 1 }
      else none
  | Action.shutdownSignal =>
      if s.shutdownPc = ShutdownPc.notCalled then
        some { s with shutdown := true, shutdownPc := ShutdownPc.waiting }
      else none
  | Action.shutdownWait =>
      if s.shutdownPc = ShutdownPc.waiting ∧ s.wg = 0 then
        some { s with shutdownPc := ShutdownPc.joined }
      else none
  | Action.shutdownCloseQueue =>
      if s.shutdownPc = ShutdownPc.joined then
        some { s with taskQueueClosed := true, shutdownPc := ShutdownPc.returned }
      else none

/-- A schedule: the actions run one after the other. -/
def run : State → List Action → Option State
  | s, [] => some s
  | s, a :: as =>
      match step s a with
      | none => none
      | some s1 => run s1 as

/-- The states a pool built by `NewThreadPool(core, max, queueSize)` can be in. -/
def Reachable (core max queueSize : Int) (s : State) : Prop :=
  ∃ s0 acts, (NewThreadPool core max queueSize).result = Except.ok s0 ∧ run s0 acts = some s

/-- The outer `select` of one call at line 68. When both the send and the shutdown
case are ready Go takes either; `preferSend` says which. `none`: neither is ready. -/
def outerSelect (preferSend : Bool) (s : State) (t : Task) : Option State :=
  if preferSend then
    match step s (Action.outerSend t) with
    | some s1 => some s1
    | none => step s (Action.outerShutdown t)
  else
    match step s (Action.outerShutdown t) with
    | some s1 => some s1
    | none => step s (Action.outerSend t)

/-- Lines 77-80 of one call that has taken the permit: `wg.Add(1)`, `go worker()`,
then the send of line 80, which completes at once when it can and otherwise leaves
the call blocked at line 80. -/
def spawnAndSend (s : State) (t : Task) : Option State :=
  match step s (Action.wgAdd t) with
  | none => none
  | some s1 =>
    match step s1 (Action.goWorker t) with
    | none => none
    | some s2 =>
      match step s2 (Action.send t) with
      | some s3 => some s3
      | none => some s2

/-- One call `submit(t)` run without interruption by other goroutines (lines 67-86),
up to its return or to the point where it blocks at line 80. -/
def submit (preferSend : Bool) (s : State) (t : Task) : Option State :=
  match step s (Action.callSubmit t) with
  | none => none
  | some s0 =>
    match outerSelect preferSend s0 t with
    | some s1 => some s1
    | none =>
      match step s0 (Action.outerDefault t) with
      | none => none
      | some s1 =>
        match step s1 (Action.innerSend t) with
        | none => step s1 (Action.innerDefault t)
        | some s2 => spawnAndSend s2 t

/-- Consecutive calls of `submit`, each with its own resolution of the outer `select`. -/
def submitAll : State → List (Bool × Task) → Option State
  | s, [] => some s
  | s, c :: cs =>
      match submit c.1 s c.2 with
      | none => none
      | some s1 => submitAll s1 cs

/-! ## Invariants and concrete schedules -/

/-- Facts that hold in every state of every schedule. -/
structure Inv (s : State) : Prop where
  core_pos : 1 ≤ s.corePoolSize
  core_le : s.corePoolSize ≤ s.maxPoolSize
  wcap : (s.workerQueueCap : Int) = s.maxPoolSize
  permits : ((spawned s + s.atAdd.length + s.atGo.length : Nat) : Int)
      = s.corePoolSize + (s.workerQueue : Int)
  tokens_le : s.workerQueue ≤ s.workerQueueCap
  tally : s.wg = ((live s + s.atGo.length : Nat) : Int)
  closed_sd : s.taskQueueClosed = true → s.shutdown = true
  term_sd : 0 < s.terminated → s.shutdown = true
  pc_sd : s.shutdownPc ≠ ShutdownPc.notCalled → s.shutdown = true
  buf_le : s.taskQueue.length ≤ s.taskQueueCap
  parked_empty : 0 < s.parked → s.taskQueue = []
  crash_closed : s.crashed = true → s.taskQueueClosed = true

/-- What no statement changes, and what only grows. -/
structure Frame (s s' : State) : Prop where
  core : s'.corePoolSize = s.corePoolSize
  max : s'.maxPoolSize = s.maxPoolSize
  tcap : s'.taskQueueCap = s.taskQueueCap
  wcap : s'.workerQueueCap = s.workerQueueCap
  tokens : s.workerQueue ≤ s'.workerQueue

/-- Schedule for `NewThreadPool(2, 4, 2)`: both core workers park, then eight calls of
`submit` run one after the other, none of the tasks ever returning. Tasks 1 and 2 are
handed to the core workers, 3 and 4 are buffered, and each of 5 to 8 finds the queue full,
takes a permit and starts a worker, whose first receive frees the slot for the send of
line 80. -/
def ceilingSchedule : List Action :=
  [Action.workerPark, Action.workerPark,
   Action.callSubmit 1, Action.outerSend 1,
   Action.callSubmit 2, Action.outerSend 2,
   Action.callSubmit 3, Action.outerSend 3,
   Action.callSubmit 4, Action.outerSend 4,
   Action.callSubmit 5, Action.outerDefault 5, Action.innerSend 5, Action.wgAdd 5,
     Action.goWorker 5, Action.workerRecv, Action.send 5,
   Action.callSubmit 6, Action.outerDefault 6, Action.innerSend 6, Action.wgAdd 6,
     Action.goWorker 6, Action.workerRecv, Action.send 6,
   Action.callSubmit 7, Action.outerDefault 7, Action.innerSend 7, Action.wgAdd 7,
     Action.goWorker 7, Action.workerRecv, Action.send 7,
   Action.callSubmit 8, Action.outerDefault 8, Action.innerSend 8, Action.wgAdd 8,
     Action.goWorker 8, Action.workerRecv, Action.send 8]

/-- Pool built by `NewThreadPool(1, 2, 2)` whose only worker is running task 1. -/
def busyPool : State :=
  { emptyPool 1 2 2 with wg := 1, executing := [1], started := [1] }

/-- Schedule for `NewThreadPool(1, 1, 0)`: the core worker parks and the first submit
hands it task 1, which never returns. -/
def firstTaskSchedule : List Action :=
  [Action.workerPark, Action.callSubmit 1, Action.outerSend 1]

/-- Schedule for `NewThreadPool(1, 1, 1)`: the core worker is handed task 1, then
`Shutdown` fires the signal and waits while task 1 is still running. -/
def signalledSchedule : List Action :=
  [Action.workerPark, Action.callSubmit 1, Action.outerSend 1, Action.shutdownSignal]

/-- Continuation of `signalledSchedule`: task 1 returns, the worker takes the shutdown
case, and `Shutdown` joins, closes the task queue and returns. -/
def returnedSchedule : List Action :=
  signalledSchedule ++
    [Action.taskReturn 1, Action.workerShutdown, Action.shutdownWait, Action.shutdownCloseQueue]

/-- Schedule for `NewThreadPool(1, 1, 1)`: task 1 runs on the core worker, task 2 is
buffered, and a third call of `submit` has taken `default` at line 75 when `Shutdown` is
called; the worker finishes task 1 and takes the shutdown case, so `Shutdown` joins,
closes the queue and returns while the call is still before line 77. -/
def lateSpawnHead : List Action :=
  [Action.workerPark, Action.callSubmit 1, Action.outerSend 1,
   Action.callSubmit 2, Action.outerSend 2,
   Action.callSubmit 3, Action.outerDefault 3,
   Action.shutdownSignal, Action.taskReturn 1, Action.workerShutdown,
   Action.shutdownWait, Action.shutdownCloseQueue]

/-- Continuation of `lateSpawnHead` after `Shutdown` has returned: the pending call
takes a permit, adds to the wait group and starts a worker, which receives the buffered
task 2 from the closed queue. -/
def lateSpawnTail : List Action :=
  [Action.innerSend 3, Action.wgAdd 3, Action.goWorker 3, Action.workerRecv]

/-- Schedule for `NewThreadPool(1, 1, 0)`: task 1 runs on the core worker; a second call
of `submit` finds the queue full, takes a permit, starts a worker and reaches the send of
line 80; `Shutdown` fires the signal, the new worker takes the shutdown case, task 1
returns and the core worker takes the shutdown case too. -/
def stuckSenderSchedule : List Action :=
  [Action.workerPark, Action.callSubmit 1, Action.outerSend 1,
   Action.callSubmit 2, Action.outerDefault 2, Action.innerSend 2, Action.wgAdd 2,
   Action.goWorker 2,
   Action.shutdownSignal, Action.workerShutdown, Action.taskReturn 1, Action.workerShutdown]

/-- State of `NewThreadPool(1, 1, 0)` in which both workers have returned after the
shutdown signal while the call `submit(2)` is at the send of line 80. -/
def stuckState : State :=
  { emptyPool 1 1 0 with
    workerQueue := 1, shutdown := true, terminated := 2, atSend := [2],
    shutdownPc := ShutdownPc.waiting, started := [1] }

/-- The call `submit(t)` is at the send of line 80 and nothing is left to receive from
it: the shutdown signal is fired, the queue has no buffer, no worker is live and no other
call is on its way to start one. -/
def Stuck (t : Task) (s : State) : Prop :=
  t ∈ s.atSend ∧ s.shutdown = true ∧ s.taskQueueCap = 0 ∧ s.taskQueue = [] ∧
    s.listening = 0 ∧ s.parked = 0 ∧ s.executing = [] ∧
    s.atInner = [] ∧ s.atAdd = [] ∧ s.atGo = []

/-- The shutdown signal is fired, no worker is live and no call of `submit` is between
the `default` of line 75 and `go tp.worker()`. -/
def Quiesced (s : State) : Prop :=
  s.shutdown = true ∧ s.listening = 0 ∧ s.parked = 0 ∧ s.executing = [] ∧
    s.atInner = [] ∧ s.atAdd = [] ∧ s.atGo = []

/-- Schedule for `NewThreadPool(1, 2, 0)`: task 1 runs on the core worker, and a second
call of `submit` has found the queue full and taken a permit at line 77, without yet
reaching `tp.wg.Add(1)`. -/
def onePendingSchedule : List Action :=
  [Action.workerPark, Action.callSubmit 1, Action.outerSend 1,
   Action.callSubmit 2, Action.outerDefault 2, Action.innerSend 2]

/-- State of `NewThreadPool(1, 2, 0)` after `onePendingSchedule`, continued by the second
call starting its worker, that worker receiving task 2, and a third call taking the last
permit: two workers run tasks and one call holds a permit without a worker. -/
def pendingPool : State :=
  { emptyPool 1 2 0 with
    wg := 2, executing := [2, 1], started := [1, 2], workerQueue := 2, atAdd := [3] }

theorem length_erase_succ {l : List Task} {t : Task} (h : t ∈ l) :
    (l.erase t).length + 1 = l.length := by
  have h1 := List.length_erase_of_mem h
  have h2 := List.length_pos_of_mem h
  omega

theorem chanSend_eq_none_iff (s : State) (t : Task) :
    chanSend s t = none ↔
      s.taskQueueClosed = false ∧ s.parked = 0 ∧ s.taskQueueCap ≤ s.taskQueue.length := by
  unfold chanSend
  split
  · simp_all
  · split
    · simp_all
      omega
    · split
      · simp_all
      · simp_all

theorem chanSend_inv {s s' : State} {t : Task} (h : chanSend s t = some s')
    (hi : Inv s) : Inv s' := by
  obtain ⟨core_pos, core_le, wcap, permits, tokens_le, tally, closed_sd, term_sd, pc_sd,
    buf_le, parked_empty, crash_closed⟩ := hi
  unfold chanSend at h
  split at h
  · rename_i hcl
    cases h
    exact ⟨core_pos, core_le, wcap, permits, tokens_le, tally, closed_sd, term_sd, pc_sd,
      buf_le, parked_empty, fun _ => hcl⟩
  · split at h
    · cases h
      refine ⟨core_pos, core_le, wcap, ?_, tokens_le, ?_, closed_sd, term_sd, pc_sd,
        buf_le, ?_, crash_closed⟩
      · simp only [spawned, live, List.length_cons] at permits ⊢; omega
      · simp only [spawned, live, List.length_cons] at tally ⊢; omega
      · intro _; exact parked_empty (by assumption)
    · split at h
      · cases h
        refine ⟨core_pos, core_le, wcap, permits, tokens_le, tally, closed_sd, term_sd, pc_sd,
          ?_, ?_, crash_closed⟩
        · simp only [List.length_append, List.length_singleton]; omega
        · intro hp; simp only at hp; omega
      · cases h

theorem step_inv {s s' : State} {a : Action} (h : step s a = some s') (hi : Inv s) : Inv s' := by
  obtain ⟨core_pos, core_le, wcap, permits, tokens_le, tally, closed_sd, term_sd, pc_sd,
    buf_le, parked_empty, crash_closed⟩ := hi
  unfold step at h
  split at h
  · cases h
  · cases a <;> simp only at h
    case callSubmit t =>
      cases h
      exact ⟨core_pos, core_le, wcap, permits, tokens_le, tally, closed_sd,
        term_sd, pc_sd, buf_le, parked_empty, crash_closed⟩
    case outerSend t =>
      split at h
      · exact chanSend_inv h ⟨core_pos, core_le, wcap, permits, tokens_le, tally, closed_sd,
          term_sd, pc_sd, buf_le, parked_empty, crash_closed⟩
      · cases h
    case send t =>
      split at h
      · exact chanSend_inv h ⟨core_pos, core_le, wcap, permits, tokens_le, tally, closed_sd,
          term_sd, pc_sd, buf_le, parked_empty, crash_closed⟩
      · cases h
    case outerShutdown t =>
      split at h
      · cases h
        exact ⟨core_pos, core_le, wcap, permits, tokens_le, tally, closed_sd,
          term_sd, pc_sd, buf_le, parked_empty, crash_closed⟩
      · cases h
    case outerDefault t =>
      split at h
      · cases h
        exact ⟨core_pos, core_le, wcap, permits, tokens_le, tally, closed_sd,
          term_sd, pc_sd, buf_le, parked_empty, crash_closed⟩
      · cases h
    case innerSend t =>
      split at h
      · rename_i hc
        have hl := length_erase_succ hc.1
        cases h
        refine ⟨core_pos, core_le, wcap, ?_, ?_, tally, closed_sd, term_sd, pc_sd, buf_le,
          parked_empty, crash_closed⟩
        · simp only [spawned, live, List.length_cons] at permits ⊢; omega
        · simp only; omega
      · cases h
    case innerDefault t =>
      split at h
      · cases h
        exact ⟨core_pos, core_le, wcap, permits, tokens_le, tally, closed_sd,
          term_sd, pc_sd, buf_le, parked_empty, crash_closed⟩
      · cases h
    case wgAdd t =>
      split at h
      · rename_i hc
        have hl := length_erase_succ hc
        cases h
        refine ⟨core_pos, core_le, wcap, ?_, tokens_le, ?_, closed_sd, term_sd, pc_sd, buf_le,
          parked_empty, crash_closed⟩
        · simp only [spawned, live, List.length_cons] at permits ⊢; omega
        · simp only [spawned, live, List.length_cons] at tally ⊢; omega
      · cases h
    case goWorker t =>
      split at h
      · rename_i hc
        have hl := length_erase_succ hc
        cases h
        refine ⟨core_pos, core_le, wcap, ?_, tokens_le, ?_, closed_sd, term_sd, pc_sd, buf_le,
          parked_empty, crash_closed⟩
        · simp only [spawned, live, List.length_cons] at permits ⊢; omega
        · simp only [spawned, live, List.length_cons] at tally ⊢; omega
      · cases h
    case workerRecv =>
      split at h
      · split at h
        · cases h
        · rename_i hpos t rest hq
          cases h
          refine ⟨core_pos, core_le, wcap, ?_, tokens_le, ?_, closed_sd, term_sd, pc_sd, ?_, ?_, crash_closed⟩
          · simp only [spawned, live, List.length_cons] at permits ⊢; omega
          · simp only [spawned, live, List.length_cons] at tally ⊢; omega
          · simp only [hq, List.length_cons] at buf_le ⊢; omega
          · intro hp
            have := parked_empty hp
            simp [hq] at this
      · cases h
    case workerRecvFrom t =>
      split at h
      · rename_i hc
        cases h
        refine ⟨core_pos, core_le, wcap, ?_, tokens_le, ?_, closed_sd, term_sd, pc_sd, buf_le,
          parked_empty, crash_closed⟩
        · simp only [spawned, live, List.length_cons] at permits ⊢; omega
        · simp only [spawned, live, List.length_cons] at tally ⊢; omega
      · cases h
    case workerClosed =>
      split at h
      · rename_i hc
        cases h
        refine ⟨core_pos, core_le, wcap, ?_, tokens_le, ?_, closed_sd, ?_, pc_sd, buf_le,
          parked_empty, crash_closed⟩
        · simp only [spawned, live, workerExit] at permits ⊢; omega
        · simp only [spawned, live, workerExit] at tally ⊢; omega
        · intro _; exact closed_sd hc.2.1
      · cases h
    case workerShutdown =>
      split at h
      · rename_i hc
        cases h
        refine ⟨core_pos, core_le, wcap, ?_, tokens_le, ?_, closed_sd, ?_, pc_sd, buf_le,
          parked_empty, crash_closed⟩
        · simp only [spawned, live, workerExit] at permits ⊢; omega
        · simp only [spawned, live, workerExit] at tally ⊢; omega
        · intro _; exact hc.2
      · cases h
    case workerPark =>
      split at h
      · rename_i hc
        cases h
        refine ⟨core_pos, core_le, wcap, ?_, tokens_le, ?_, closed_sd, term_sd, pc_sd, buf_le,
          ?_, crash_closed⟩
        · simp only [spawned, live] at permits ⊢; omega
        · simp only [spawned, live] at tally ⊢; omega
        · intro _; exact hc.2.1
      · cases h
    case parkedShutdown =>
      split at h
      · rename_i hc
        cases h
        refine ⟨core_pos, core_le, wcap, ?_, tokens_le, ?_, closed_sd, ?_, pc_sd, buf_le, ?_, crash_closed⟩
        · simp only [spawned, live, workerExit] at permits ⊢; omega
        · simp only [spawned, live, workerExit] at tally ⊢; omega
        · intro _; exact hc.2
        · intro _; exact parked_empty hc.1
      · cases h
    case parkedClosed =>
      split at h
      · rename_i hc
        cases h
        refine ⟨core_pos, core_le, wcap, ?_, tokens_le, ?_, closed_sd, ?_, pc_sd, buf_le, ?_, crash_closed⟩
        · simp only [spawned, live, workerExit] at permits ⊢; omega
        · simp only [spawned, live, workerExit] at tally ⊢; omega
        · intro _; exact closed_sd hc.2
        · intro _; exact parked_empty hc.1
      · cases h
    case taskReturn t =>
      split at h
      · rename_i hc
        have hl := length_erase_succ hc
        cases h
        refine ⟨core_pos, core_le, wcap, ?_, tokens_le, ?_, closed_sd, term_sd, pc_sd, buf_le,
          parked_empty, crash_closed⟩
        · simp only [spawned, live] at permits ⊢; omega
        · simp only [spawned, live] at tally ⊢; omega
      · cases h
    case shutdownSignal =>
      split at h
      · cases h
        exact ⟨core_pos, core_le, wcap, permits, tokens_le, tally, fun _ => rfl, fun _ => rfl,
          fun _ => rfl, buf_le, parked_empty, crash_closed⟩
      · cases h
    case shutdownWait =>
      split at h
      · rename_i hc
        cases h
        refine ⟨core_pos, core_le, wcap, permits, tokens_le, tally, closed_sd, term_sd, ?_,
          buf_le, parked_empty, crash_closed⟩
        intro _
        exact pc_sd (by rw [hc.1]; decide)
      · cases h
    case shutdownCloseQueue =>
      split at h
      · rename_i hc
        cases h
        refine ⟨core_pos, core_le, wcap, permits, tokens_le, tally, ?_, term_sd, ?_,
          buf_le, parked_empty, fun _ => rfl⟩
        · intro _
          exact pc_sd (by rw [hc]; decide)
        · intro _
          exact pc_sd (by rw [hc]; decide)
      · cases h

theorem run_inv {acts : List Action} : ∀ {s s' : State}, run s acts = some s' → Inv s → Inv s' := by
  induction acts with
  | nil => intro s s' h hi; simp only [run] at h; cases h; exact hi
  | cons a as ih =>
    intro s s' h hi
    simp only [run] at h
    split at h
    · cases h
    · rename_i s1 hs
      exact ih h (step_inv hs hi)

theorem startCore_fields (n : Nat) : ∀ s : State,
    startCore n s = { s with wg := s.wg + n, listening := s.listening + n } := by
  induction n with
  | zero => intro s; simp [startCore]
  | succ k ih =>
    intro s
    rw [startCore, ih]
    simp only [startWorker, Nat.cast_add, Nat.cast_one]
    congr 1
    · omega
    · omega

theorem makechanPanics_zero {n : Int} (h : 0 ≤ n) : makechanPanics 0 n = false := by
  simp [makechanPanics, maxAlloc, hchanSize]
  omega

theorem allocate_ok {c m q : Int} (hm : 0 ≤ m) (hq : makechanPanics taskSize q = false) :
    allocate c m q = Except.ok (emptyPool c m q) := by
  simp [allocate, hq, makechanPanics_zero hm, makechanPanics_zero (le_refl (0 : Int))]

theorem allocate_error {c m q : Int} (hq : makechanPanics taskSize q = true) :
    allocate c m q = Except.error "makechan: size out of range" := by
  simp [allocate, hq]

theorem new_of_valid {c m q : Int} (h1 : 1 ≤ c) (h2 : c ≤ m) (h3 : 0 ≤ q)
    (h4 : makechanPanics taskSize q = false) :
    NewThreadPool c m q =
      ⟨spawned (startCore c.toNat (emptyPool c m q)),
        Except.ok (startCore c.toNat (emptyPool c m q))⟩ := by
  have hv : ¬ (c < 1 ∨ m < 1 ∨ q < 0) := by omega
  have hw : ¬ (c > m) := by omega
  simp only [NewThreadPool, hv, hw, if_false, allocate_ok (by omega : 0 ≤ m) h4]

theorem new_ok {c m q : Int} {s : State} (h : (NewThreadPool c m q).result = Except.ok s) :
    (1 ≤ c ∧ c ≤ m ∧ 0 ≤ q) ∧ makechanPanics taskSize q = false ∧
      s = startCore c.toNat (emptyPool c m q) := by
  by_cases hv : c < 1 ∨ m < 1 ∨ q < 0
  · simp [NewThreadPool, hv] at h
  · by_cases hw : c > m
    · simp [NewThreadPool, hv, hw] at h
    · cases hq : makechanPanics taskSize q
      · rw [new_of_valid (by omega) (by omega) (by omega) hq] at h
        simp only [Except.ok.injEq] at h
        exact ⟨by omega, rfl, h.symm⟩
      · simp [NewThreadPool, hv, hw, allocate_error hq] at h

theorem new_inv {c m q : Int} {s : State} (h : (NewThreadPool c m q).result = Except.ok s) :
    Inv s := by
  obtain ⟨hv, _, hs⟩ := new_ok h
  rw [startCore_fields] at hs
  subst hs
  constructor <;> simp [emptyPool, spawned, live] <;> omega

theorem reachable_inv {c m q : Int} {s : State} (h : Reachable c m q s) : Inv s := by
  obtain ⟨s0, acts, h0, hr⟩ := h
  exact run_inv hr (new_inv h0)

theorem frame_refl (s : State) : Frame s s := ⟨rfl, rfl, rfl, rfl, le_refl _⟩

theorem frame_trans {a b c : State} (h1 : Frame a b) (h2 : Frame b c) : Frame a c :=
  ⟨h2.core.trans h1.core, h2.max.trans h1.max, h2.tcap.trans h1.tcap, h2.wcap.trans h1.wcap,
    le_trans h1.tokens h2.tokens⟩

theorem chanSend_frame {s s' : State} {t : Task} (h : chanSend s t = some s') : Frame s s' := by
  unfold chanSend at h
  split at h
  · cases h; exact ⟨rfl, rfl, rfl, rfl, le_refl _⟩
  · split at h
    · cases h; exact ⟨rfl, rfl, rfl, rfl, le_refl _⟩
    · split at h
      · cases h; exact ⟨rfl, rfl, rfl, rfl, le_refl _⟩
      · cases h

theorem step_frame {s s' : State} {a : Action} (h : step s a = some s') : Frame s s' := by
  unfold step at h
  split at h
  · cases h
  · cases a <;> simp only at h
    case outerSend t =>
      split at h
      · have hf := chanSend_frame h
        exact ⟨hf.core, hf.max, hf.tcap, hf.wcap, hf.tokens⟩
      · cases h
    case send t =>
      split at h
      · have hf := chanSend_frame h
        exact ⟨hf.core, hf.max, hf.tcap, hf.wcap, hf.tokens⟩
      · cases h
    case workerRecv =>
      split at h
      · split at h
        · cases h
        · cases h; exact ⟨rfl, rfl, rfl, rfl, le_refl _⟩
      · cases h
    case callSubmit t =>
      cases h; exact ⟨rfl, rfl, rfl, rfl, le_refl _⟩
    all_goals
      split at h
      · cases h
        first
          | exact ⟨rfl, rfl, rfl, rfl, le_refl _⟩
          | exact ⟨rfl, rfl, rfl, rfl, Nat.le_succ _⟩
      · cases h

theorem run_frame {acts : List Action} : ∀ {s s' : State}, run s acts = some s' → Frame s s' := by
  induction acts with
  | nil => intro s s' h; simp only [run] at h; cases h; exact frame_refl s
  | cons a as ih =>
    intro s s' h
    simp only [run] at h
    split at h
    · cases h
    · rename_i s1 hs
      exact frame_trans (step_frame hs) (ih h)

theorem new_fields {c m q : Int} {s : State} (h : (NewThreadPool c m q).result = Except.ok s) :
    (1 ≤ c ∧ c ≤ m ∧ 0 ≤ q) ∧
    s = { emptyPool c m q with wg := c, listening := c.toNat } := by
  obtain ⟨hv, _, hs⟩ := new_ok h
  rw [startCore_fields] at hs
  subst hs
  refine ⟨hv, ?_⟩
  simp only [emptyPool, zero_add, State.mk.injEq, and_true, true_and]
  omega

theorem reachable_fields {c m q : Int} {s : State} (h : Reachable c m q s) :
    s.corePoolSize = c ∧ s.maxPoolSize = m ∧ s.taskQueueCap = q.toNat ∧
      s.workerQueueCap = m.toNat := by
  obtain ⟨s0, acts, h0, hr⟩ := h
  have hf := run_frame hr
  obtain ⟨_, h1⟩ := new_fields h0
  subst h1
  exact ⟨hf.core, hf.max, hf.tcap, hf.wcap⟩

theorem submit_enqueue (b : Bool) (s : State) (t : Task) (hcr : s.crashed = false)
    (hsd : s.shutdown = false) (hcl : s.taskQueueClosed = false) (hp : s.parked = 0)
    (hroom : s.taskQueue.length < s.taskQueueCap) :
    submit b s t = some { s with taskQueue := s.taskQueue ++ [t] } := by
  cases b <;>
    simp [submit, outerSelect, step, chanSend, hcr, hsd, hcl, hp, hroom]

theorem submit_reject (b : Bool) (s : State) (t : Task) (hcr : s.crashed = false)
    (hsd : s.shutdown = false) (hcl : s.taskQueueClosed = false) (hp : s.parked = 0)
    (hfull : s.taskQueueCap ≤ s.taskQueue.length) (hperm : ¬ s.workerQueue < s.workerQueueCap) :
    submit b s t = some { s with rejected := s.rejected ++ [t] } := by
  have hfull' : ¬ s.taskQueue.length < s.taskQueueCap := by omega
  cases b <;>
    simp [submit, outerSelect, spawnAndSend, step, chanSend, hcr, hsd, hcl, hp, hfull', hperm]

theorem submitAll_enqueue : ∀ (calls : List (Bool × Task)) (s : State),
    s.crashed = false → s.shutdown = false → s.taskQueueClosed = false → s.parked = 0 →
    s.taskQueue.length + calls.length ≤ s.taskQueueCap →
    submitAll s calls = some { s with taskQueue := s.taskQueue ++ calls.map Prod.snd } := by
  intro calls
  induction calls with
  | nil => intro s _ _ _ _ _; simp [submitAll]
  | cons c cs ih =>
    intro s hcr hsd hcl hp hlen
    simp only [List.length_cons] at hlen
    have hroom : s.taskQueue.length < s.taskQueueCap := by omega
    rw [submitAll, submit_enqueue c.1 s c.2 hcr hsd hcl hp hroom]
    simp only
    have h2 := ih { s with taskQueue := s.taskQueue ++ [c.2] } hcr hsd hcl hp
      (by simp only [List.length_append, List.length_singleton]; omega)
    rw [h2]
    simp

theorem reachable_open {c m q : Int} {s : State} (h : Reachable c m q s)
    (hsd : s.shutdown = false) :
    s.crashed = false ∧ s.taskQueueClosed = false ∧ s.terminated = 0 ∧
      s.shutdownPc = ShutdownPc.notCalled := by
  have hi := reachable_inv h
  have hcl : s.taskQueueClosed = false := by
    cases hx : s.taskQueueClosed
    · rfl
    · have := hi.closed_sd hx
      rw [hsd] at this
      cases this
  refine ⟨?_, hcl, ?_, ?_⟩
  · cases hx : s.crashed
    · rfl
    · have := hi.crash_closed hx
      rw [hcl] at this
      cases this
  · by_contra hne
    have := hi.term_sd (Nat.pos_of_ne_zero hne)
    rw [hsd] at this
    cases this
  · by_contra hne
    have := hi.pc_sd hne
    rw [hsd] at this
    cases this

theorem run_append : ∀ (xs ys : List Action) (s : State),
    run s (xs ++ ys) = (run s xs).bind (fun s1 => run s1 ys) := by
  intro xs
  induction xs with
  | nil => intro ys s; simp [run]
  | cons a as ih =>
    intro ys s
    show run s (a :: (as ++ ys)) = (run s (a :: as)).bind (fun s1 => run s1 ys)
    cases hs : step s a with
    | none => simp [run, hs]
    | some s1 =>
      simp only [run, hs]
      exact ih ys s1

theorem run_one {s s1 : State} {a : Action} (h : step s a = some s1) :
    run s [a] = some s1 := by
  simp [run, h]

theorem run_snoc {s s1 s2 : State} {acts : List Action} {a : Action}
    (h1 : run s acts = some s1) (h2 : step s1 a = some s2) :
    run s (acts ++ [a]) = some s2 := by
  rw [run_append, h1]
  simp [run, h2]

theorem outerSelect_step {b : Bool} {s s1 : State} {t : Task}
    (h : outerSelect b s t = some s1) :
    step s (Action.outerSend t) = some s1 ∨ step s (Action.outerShutdown t) = some s1 := by
  unfold outerSelect at h
  split at h
  · split at h
    · rename_i h1; cases h; exact Or.inl h1
    · exact Or.inr h
  · split at h
    · rename_i h1; cases h; exact Or.inr h1
    · exact Or.inl h

theorem spawnAndSend_run {s s1 : State} {t : Task} (h : spawnAndSend s t = some s1) :
    ∃ acts, run s acts = some s1 := by
  unfold spawnAndSend at h
  split at h
  · cases h
  · rename_i a ha
    split at h
    · cases h
    · rename_i b hb
      split at h
      · rename_i c hc
        cases h
        exact ⟨[Action.wgAdd t, Action.goWorker t, Action.send t],
          run_snoc (run_snoc (run_one ha) hb) hc⟩
      · cases h
        exact ⟨[Action.wgAdd t, Action.goWorker t], run_snoc (run_one ha) hb⟩

/-- A call of `submit` is a schedule of the statements of `step`. -/
theorem submit_run {b : Bool} {s s1 : State} {t : Task} (h : submit b s t = some s1) :
    ∃ acts, run s acts = some s1 := by
  unfold submit at h
  split at h
  · cases h
  · rename_i s0 h0
    split at h
    · rename_i x hx
      cases h
      rcases outerSelect_step hx with h1 | h1
      · exact ⟨_, run_snoc (run_one h0) h1⟩
      · exact ⟨_, run_snoc (run_one h0) h1⟩
    · split at h
      · cases h
      · rename_i y hy
        split at h
        · exact ⟨_, run_snoc (run_snoc (run_one h0) hy) h⟩
        · rename_i z hz
          obtain ⟨acts, ha⟩ := spawnAndSend_run h
          have h3 : run s [Action.callSubmit t, Action.outerDefault t, Action.innerSend t]
              = some z := run_snoc (run_snoc (run_one h0) hy) hz
          refine ⟨[Action.callSubmit t, Action.outerDefault t, Action.innerSend t] ++ acts, ?_⟩
          rw [run_append, h3]
          exact ha

theorem submit_reachable {c m q : Int} {b : Bool} {s s1 : State} {t : Task}
    (hr : Reachable c m q s) (h : submit b s t = some s1) : Reachable c m q s1 := by
  obtain ⟨s0, acts, h0, h1⟩ := hr
  obtain ⟨acts2, h2⟩ := submit_run h
  refine ⟨s0, acts ++ acts2, h0, ?_⟩
  rw [run_append, h1]
  exact h2

theorem chanSend_stuck {s s' : State} {t : Task} (h : chanSend s t = some s')
    (hcap : s.taskQueueCap = 0) (hq : s.taskQueue = []) (hp : s.parked = 0) :
    s'.crashed = true := by
  unfold chanSend at h
  split at h
  · cases h; rfl
  · split at h
    · omega
    · split at h
      · rename_i hlt
        rw [hq, hcap] at hlt
        simp at hlt
      · cases h

theorem stuck_step {t : Task} {s s' : State} {a : Action} (hs : Stuck t s)
    (h : step s a = some s') : Stuck t s' ∨ s'.crashed = true := by
  obtain ⟨hmem, hsd, hcap, hq, hl, hp, hex, hin, hadd, hgo⟩ := hs
  unfold step at h
  split at h
  · cases h
  · cases a <;> simp only at h
    case callSubmit u =>
      cases h
      exact Or.inl ⟨hmem, hsd, hcap, hq, hl, hp, hex, hin, hadd, hgo⟩
    case outerSend u =>
      split at h
      · exact Or.inr (chanSend_stuck h hcap hq hp)
      · cases h
    case send u =>
      split at h
      · exact Or.inr (chanSend_stuck h hcap hq hp)
      · cases h
    case outerShutdown u =>
      split at h
      · cases h
        exact Or.inl ⟨hmem, hsd, hcap, hq, hl, hp, hex, hin, hadd, hgo⟩
      · cases h
    case outerDefault u =>
      split at h
      · rename_i hc
        have := hc.2.1
        simp [hsd] at this
      · cases h
    case innerSend u =>
      split at h
      · rename_i hc
        have := hc.1
        simp [hin] at this
      · cases h
    case innerDefault u =>
      split at h
      · rename_i hc
        have := hc.1
        simp [hin] at this
      · cases h
    case wgAdd u =>
      split at h
      · rename_i hc
        simp [hadd] at hc
      · cases h
    case goWorker u =>
      split at h
      · rename_i hc
        simp [hgo] at hc
      · cases h
    case workerRecv =>
      split at h
      · omega
      · cases h
    case workerRecvFrom u =>
      split at h
      · rename_i hc
        omega
      · cases h
    case workerClosed =>
      split at h
      · rename_i hc
        omega
      · cases h
    case workerShutdown =>
      split at h
      · rename_i hc
        omega
      · cases h
    case workerPark =>
      split at h
      · rename_i hc
        omega
      · cases h
    case parkedShutdown =>
      split at h
      · rename_i hc
        omega
      · cases h
    case parkedClosed =>
      split at h
      · rename_i hc
        omega
      · cases h
    case taskReturn u =>
      split at h
      · rename_i hc
        simp [hex] at hc
      · cases h
    case shutdownSignal =>
      split at h
      · cases h
        exact Or.inl ⟨hmem, rfl, hcap, hq, hl, hp, hex, hin, hadd, hgo⟩
      · cases h
    case shutdownWait =>
      split at h
      · cases h
        exact Or.inl ⟨hmem, hsd, hcap, hq, hl, hp, hex, hin, hadd, hgo⟩
      · cases h
    case shutdownCloseQueue =>
      split at h
      · cases h
        exact Or.inl ⟨hmem, hsd, hcap, hq, hl, hp, hex, hin, hadd, hgo⟩
      · cases h

theorem crashed_run {acts : List Action} {s s' : State} (hc : s.crashed = true)
    (h : run s acts = some s') : s'.crashed = true := by
  cases acts with
  | nil => simp only [run] at h; cases h; exact hc
  | cons a as => simp [run, step, hc] at h

theorem stuck_run {t : Task} {acts : List Action} : ∀ {s s' : State}, Stuck t s →
    run s acts = some s' → Stuck t s' ∨ s'.crashed = true := by
  induction acts with
  | nil => intro s s' hs h; simp only [run] at h; cases h; exact Or.inl hs
  | cons a as ih =>
    intro s s' hs h
    simp only [run] at h
    split at h
    · cases h
    · rename_i s1 h1
      rcases stuck_step hs h1 with h2 | h2
      · exact ih h2 h
      · exact Or.inr (crashed_run h2 h)

theorem chanSend_quiesced {s s' : State} {t : Task} (h : chanSend s t = some s')
    (hs : Quiesced s) : Quiesced s' ∧ s'.started = s.started ∧ s'.wg = s.wg := by
  obtain ⟨hsd, hl, hp, hex, hin, hadd, hgo⟩ := hs
  unfold chanSend at h
  split at h
  · cases h; exact ⟨⟨hsd, hl, hp, hex, hin, hadd, hgo⟩, rfl, rfl⟩
  · split at h
    · omega
    · split at h
      · cases h; exact ⟨⟨hsd, hl, hp, hex, hin, hadd, hgo⟩, rfl, rfl⟩
      · cases h

theorem quiesced_step {s s' : State} {a : Action} (hs : Quiesced s)
    (h : step s a = some s') : Quiesced s' ∧ s'.started = s.started ∧ s'.wg = s.wg := by
  obtain ⟨hsd, hl, hp, hex, hin, hadd, hgo⟩ := hs
  unfold step at h
  split at h
  · cases h
  · cases a <;> simp only at h
    case callSubmit u =>
      cases h
      exact ⟨⟨hsd, hl, hp, hex, hin, hadd, hgo⟩, rfl, rfl⟩
    case outerSend u =>
      split at h
      · have hq := chanSend_quiesced h ⟨hsd, hl, hp, hex, hin, hadd, hgo⟩
        exact hq
      · cases h
    case send u =>
      split at h
      · have hq := chanSend_quiesced h ⟨hsd, hl, hp, hex, hin, hadd, hgo⟩
        exact hq
      · cases h
    case outerShutdown u =>
      split at h
      · cases h
        exact ⟨⟨hsd, hl, hp, hex, hin, hadd, hgo⟩, rfl, rfl⟩
      · cases h
    case outerDefault u =>
      split at h
      · rename_i hc
        have := hc.2.1
        simp [hsd] at this
      · cases h
    case innerSend u =>
      split at h
      · rename_i hc
        have := hc.1
        simp [hin] at this
      · cases h
    case innerDefault u =>
      split at h
      · rename_i hc
        have := hc.1
        simp [hin] at this
      · cases h
    case wgAdd u =>
      split at h
      · rename_i hc
        simp [hadd] at hc
      · cases h
    case goWorker u =>
      split at h
      · rename_i hc
        simp [hgo] at hc
      · cases h
    case workerRecv =>
      split at h
      · omega
      · cases h
    case workerRecvFrom u =>
      split at h
      · rename_i hc
        omega
      · cases h
    case workerClosed =>
      split at h
      · rename_i hc
        omega
      · cases h
    case workerShutdown =>
      split at h
      · rename_i hc
        omega
      · cases h
    case workerPark =>
      split at h
      · rename_i hc
        omega
      · cases h
    case parkedShutdown =>
      split at h
      · rename_i hc
        omega
      · cases h
    case parkedClosed =>
      split at h
      · rename_i hc
        omega
      · cases h
    case taskReturn u =>
      split at h
      · rename_i hc
        simp [hex] at hc
      · cases h
    case shutdownSignal =>
      split at h
      · cases h
        exact ⟨⟨rfl, hl, hp, hex, hin, hadd, hgo⟩, rfl, rfl⟩
      · cases h
    case shutdownWait =>
      split at h
      · cases h
        exact ⟨⟨hsd, hl, hp, hex, hin, hadd, hgo⟩, rfl, rfl⟩
      · cases h
    case shutdownCloseQueue =>
      split at h
      · cases h
        exact ⟨⟨hsd, hl, hp, hex, hin, hadd, hgo⟩, rfl, rfl⟩
      · cases h

theorem quiesced_run {acts : List Action} : ∀ {s s' : State}, Quiesced s →
    run s acts = some s' → Quiesced s' ∧ s'.started = s.started ∧ s'.wg = s.wg := by
  induction acts with
  | nil => intro s s' hs h; simp only [run] at h; cases h; exact ⟨hs, rfl, rfl⟩
  | cons a as ih =>
    intro s s' hs h
    simp only [run] at h
    split at h
    · cases h
    · rename_i s1 h1
      obtain ⟨q1, e1, w1⟩ := quiesced_step hs h1
      obtain ⟨q2, e2, w2⟩ := ih q1 h
      exact ⟨q2, e2.trans e1, w2.trans w1⟩

/-- When `p.wg.Wait()` can return (signal fired, join tally zero) and no call of `submit`
is between the `default` of line 75 and `tp.wg.Add(1)`, every later state has no live
worker, a zero join tally and no newly started task. -/
theorem shutdown_final_when_quiet {c m q : Int} {s s' : State} {acts : List Action}
    (hr : Reachable c m q s) (hsd : s.shutdown = true) (hwg : s.wg = 0)
    (hin : s.atInner = []) (hadd : s.atAdd = []) (h : run s acts = some s') :
    live s' = 0 ∧ s'.wg = 0 ∧ s'.started = s.started ∧ s'.shutdown = true := by
  have hi := reachable_inv hr
  have ht := hi.tally
  rw [hwg] at ht
  simp only [live] at ht
  have hgo : s.atGo = [] := List.eq_nil_of_length_eq_zero (by omega)
  have hex : s.executing = [] := List.eq_nil_of_length_eq_zero (by omega)
  have hq : Quiesced s := ⟨hsd, by omega, by omega, hex, hin, hadd, hgo⟩
  obtain ⟨⟨h1, h2, h3, h4, _⟩, h5, h6⟩ := quiesced_run hq h
  refine ⟨?_, h6.trans hwg, h5, h1⟩
  simp [live, h2, h3, h4]

/-- C1: the code at the claim's own witness. After `NewThreadPool(2, 4, 2)` and eight
submits of tasks that do not finish, six workers are live and four extra workers have been
spawned, although `maxPoolSize` is 4 and `maxPoolSize - corePoolSize` is 2: the permit
channel was made with capacity `maxPoolSize`. -/
theorem worker_ceiling_exceeded :
    ∃ s0 s, (NewThreadPool 2 4 2).result = Except.ok s0 ∧ run s0 ceilingSchedule = some s ∧
      live s = 6 ∧ s.maxPoolSize = 4 ∧ s.workerQueue = 4 ∧ s.workerQueueCap = 4 ∧
      s.executing = [6, 5, 4, 3, 2, 1] ∧ s.taskQueue = [7, 8] ∧ s.rejected = [] ∧
      s.atSend = [] ∧ s.shutdown = false :=
  ⟨_, _, rfl, rfl, by decide⟩

/-- C2: the code at the claim's own witness. On `NewThreadPool(1, 1, 0)` with the single
core worker running a task forever, the pool is not shut down, its queue is full and its
live worker count equals `maxPoolSize`; the second `submit` is not rejected: it takes a
permit and starts a second worker, which receives the task and runs it. -/
theorem submit_at_ceiling_spawns :
    ∃ s0 s s1 s2, (NewThreadPool 1 1 0).result = Except.ok s0 ∧
      run s0 firstTaskSchedule = some s ∧
      s.shutdown = false ∧ s.taskQueueCap ≤ s.taskQueue.length ∧ s.parked = 0 ∧
      (live s : Int) = s.maxPoolSize ∧
      submit true s 2 = some s1 ∧ submit false s 2 = some s1 ∧
      s1.rejected = [] ∧ s1.workerQueue = s.workerQueue + 1 ∧ live s1 = 2 ∧
      run s1 [Action.workerRecvFrom 2] = some s2 ∧
      s2.started = [1, 2] ∧ s2.executing = [2, 1] ∧ s2.atSend = [] :=
  ⟨_, _, _, _, rfl, rfl, by decide, by decide, by decide, by decide, rfl, rfl, by decide,
    by decide, by decide, rfl, by decide⟩

/-- C3: the code after the shutdown signal. On `NewThreadPool(1, 1, 1)`, while `Shutdown`
is joining, a `submit` whose outer `select` takes the send case puts its task in the
queue, where the worker then receives and runs it; once `Shutdown` has returned and
closed the queue, a `submit` whose outer `select` takes the send case panics. -/
theorem submit_after_shutdown_not_discarded :
    ∃ s0 s s1 s2 r r1, (NewThreadPool 1 1 1).result = Except.ok s0 ∧
      run s0 signalledSchedule = some s ∧ s.shutdown = true ∧
      s.shutdownPc = ShutdownPc.waiting ∧
      submit true s 2 = some s1 ∧ s1.taskQueue = [2] ∧
      run s1 [Action.taskReturn 1, Action.workerRecv] = some s2 ∧ s2.started = [1, 2] ∧
      run s0 returnedSchedule = some r ∧ r.shutdownPc = ShutdownPc.returned ∧
      r.taskQueueClosed = true ∧ r.crashed = false ∧
      submit true r 2 = some r1 ∧ r1.crashed = true :=
  ⟨_, _, _, _, _, _, rfl, rfl, by decide, by decide, rfl, by decide, rfl, by decide, rfl,
    by decide, by decide, by decide, rfl, by decide⟩

/-- C6: on a pool that is not shut down, whose queue is empty and whose workers are all
busy, `N ≤ queueSize` consecutive `submit` calls all return with the queue holding exactly
the submitted tasks in submission order; nothing is rejected, no worker is spawned, no
permit is taken and the join tally is unchanged. -/
theorem submit_queue_fifo (c m q : Int) (s : State) (calls : List (Bool × Task))
    (hr : Reachable c m q s) (hsd : s.shutdown = false) (hq : s.taskQueue = [])
    (hbusy : s.listening = 0 ∧ s.parked = 0) (hn : (calls.length : Int) ≤ q) :
    ∃ s', submitAll s calls = some s' ∧ s'.taskQueue = calls.map Prod.snd ∧
      s'.rejected = s.rejected ∧ s'.workerQueue = s.workerQueue ∧
      spawned s' = spawned s ∧ live s' = live s ∧ s'.executing = s.executing ∧
      s'.listening = 0 ∧ s'.parked = 0 ∧ s'.wg = s.wg ∧ s'.started = s.started ∧
      s'.atOuter = s.atOuter ∧ s'.atInner = s.atInner ∧ s'.atAdd = s.atAdd ∧
      s'.atGo = s.atGo ∧ s'.atSend = s.atSend ∧ s'.crashed = false := by
  obtain ⟨hcr, hcl, _, _⟩ := reachable_open hr hsd
  obtain ⟨_, _, hcap, _⟩ := reachable_fields hr
  have hlen : s.taskQueue.length + calls.length ≤ s.taskQueueCap := by
    rw [hq, hcap]; simp only [List.length_nil]; omega
  refine ⟨_, submitAll_enqueue calls s hcr hsd hcl hbusy.2 hlen, ?_⟩
  simp [hq, spawned, live, hbusy.1, hbusy.2, hcr]

/-- Witness of `submit_queue_fifo`: two submits on `busyPool` (queue size 2). -/
theorem submit_queue_fifo_witness :
    Reachable 1 2 2 busyPool ∧
    ∃ s', submitAll busyPool [(true, 2), (false, 3)] = some s' ∧ s'.taskQueue = [2, 3] ∧
      s'.rejected = [] ∧ s'.workerQueue = 0 ∧ live s' = 1 := by
  have hr : Reachable 1 2 2 busyPool := ⟨_, firstTaskSchedule, rfl, rfl⟩
  obtain ⟨s', h1, h2, h3, h4, _, h5, _⟩ :=
    submit_queue_fifo 1 2 2 busyPool [(true, 2), (false, 3)] hr rfl rfl ⟨rfl, rfl⟩
      (by decide)
  exact ⟨hr, s', h1, h2, h3, h4, h5⟩

/-- C8: the code when `Shutdown` overtakes a `submit` call. On `NewThreadPool(1, 1, 1)`
the schedule `lateSpawnHead` ends with `Shutdown` returned, the queue closed, no worker
live and the join tally zero; the pending call then starts a worker (join tally 1, one
live worker), and that worker begins task 2, which was left in the queue. -/
theorem task_starts_after_shutdown_returned :
    ∃ s0 s s', (NewThreadPool 1 1 1).result = Except.ok s0 ∧
      run s0 lateSpawnHead = some s ∧
      s.shutdownPc = ShutdownPc.returned ∧ s.shutdown = true ∧ s.taskQueueClosed = true ∧
      live s = 0 ∧ s.wg = 0 ∧ s.taskQueue = [2] ∧ s.started = [1] ∧ s.executing = [] ∧
      run s lateSpawnTail = some s' ∧
      s'.started = [1, 2] ∧ s'.executing = [2] ∧ live s' = 1 ∧ s'.wg = 1 ∧
      s'.crashed = false :=
  ⟨_, _, _, rfl, rfl, by decide, by decide, by decide, by decide, by decide, by decide,
    by decide, by decide, rfl, by decide⟩

/-- C9: the code when `Shutdown` overtakes the send of line 80. On `NewThreadPool(1, 1, 0)`
the schedule `stuckSenderSchedule` reaches `stuckState`, where the call that took a permit
and started a worker is at line 80, the queue has no free slot, the shutdown signal is
fired and every worker has returned. From there the send cannot complete: in every later
state the call is still at line 80 or the process has panicked, and when `Shutdown` joins
and closes the queue the send does panic. -/
theorem sender_stuck_after_shutdown :
    ∃ s0 s', (NewThreadPool 1 1 0).result = Except.ok s0 ∧
      run s0 stuckSenderSchedule = some stuckState ∧
      stuckState.atSend = [2] ∧ stuckState.workerQueue = 1 ∧
      stuckState.taskQueueCap ≤ stuckState.taskQueue.length ∧
      stuckState.shutdown = true ∧ live stuckState = 0 ∧ stuckState.terminated = 2 ∧
      stuckState.crashed = false ∧
      (∀ acts r, run stuckState acts = some r → 2 ∈ r.atSend ∨ r.crashed = true) ∧
      run stuckState [Action.shutdownWait, Action.shutdownCloseQueue, Action.send 2]
        = some s' ∧
      s'.crashed = true := by
  refine ⟨_, _, rfl, rfl, by decide, by decide, by decide, by decide, by decide,
    by decide, by decide, ?_, rfl, by decide⟩
  intro acts r hr
  have hs : Stuck 2 stuckState :=
    ⟨by decide, rfl, rfl, rfl, rfl, rfl, rfl, rfl, rfl, rfl⟩
  rcases stuck_run hs hr with h | h
  · exact Or.inl h.1
  · exact Or.inr h

/-- C10 (counterexample): on `NewThreadPool(1, 2, 0)` after `onePendingSchedule` one worker
has been spawned, `corePoolSize` is 1 and `workerQueue` holds one token: the workers ever
spawned are not `core` plus the tokens while a call is between line 77 and line 79. -/
theorem spawned_lags_permit :
    ∃ s0 s, (NewThreadPool 1 2 0).result = Except.ok s0 ∧
      run s0 onePendingSchedule = some s ∧
      spawned s = 1 ∧ s.corePoolSize = 1 ∧ s.workerQueue = 1 ∧ s.atAdd = [2] ∧
      (spawned s : Int) ≠ s.corePoolSize + (s.workerQueue : Int) :=
  ⟨_, _, rfl, rfl, by decide, by decide, by decide, by decide, by decide⟩

/-- C10 (amended): in every state reachable from `NewThreadPool(core, max, queueSize)` the
workers ever spawned, plus the submit calls that hold a permit and have not yet reached
`go tp.worker()`, number `core` plus the tokens in `workerQueue`; whenever no call is
between line 77 and line 79 the workers ever spawned are exactly `core` plus the tokens.
No statement removes a token, the tokens never exceed the channel capacity `maxPoolSize`,
and so at most `core + max` workers are live. -/
theorem permit_accounting (c m q : Int) (s : State) (h : Reachable c m q s) :
    ((spawned s + s.atAdd.length + s.atGo.length : Nat) : Int) = c + (s.workerQueue : Int) ∧
    (s.atAdd = [] → s.atGo = [] → (spawned s : Int) = c + (s.workerQueue : Int)) ∧
    (∀ a s', step s a = some s' → s.workerQueue ≤ s'.workerQueue) ∧
    (s.workerQueueCap : Int) = m ∧ s.workerQueue ≤ s.workerQueueCap ∧
    (live s : Int) ≤ c + m := by
  have hi := reachable_inv h
  obtain ⟨hc, hm, _, _⟩ := reachable_fields h
  have hp := hi.permits
  have hw := hi.wcap
  have ht := hi.tokens_le
  rw [hc] at hp
  rw [hm] at hw
  refine ⟨hp, ?_, ?_, hw, ht, ?_⟩
  · intro ha hg
    rw [ha, hg] at hp
    simpa using hp
  · intro a s' hs
    exact (step_frame hs).tokens
  · simp only [spawned] at hp
    omega

/-- Witness of `permit_accounting` at `pendingPool`: two workers spawned and one call
holding a permit against `core = 1` and two tokens, the capacity of `workerQueue`. -/
theorem permit_accounting_witness :
    Reachable 1 2 0 pendingPool ∧
    ((spawned pendingPool + pendingPool.atAdd.length + pendingPool.atGo.length : Nat) : Int)
      = 1 + (pendingPool.workerQueue : Int) ∧
    spawned pendingPool = 2 ∧ pendingPool.atAdd.length = 1 ∧ pendingPool.workerQueue = 2 ∧
    pendingPool.workerQueue ≤ pendingPool.workerQueueCap ∧
    (live pendingPool : Int) ≤ 1 + 2 := by
  have hr : Reachable 1 2 0 pendingPool :=
    ⟨_, onePendingSchedule ++ [Action.wgAdd 2, Action.goWorker 2, Action.workerRecvFrom 2,
      Action.callSubmit 3, Action.outerDefault 3, Action.innerSend 3], rfl, rfl⟩
  have h := permit_accounting 1 2 0 pendingPool hr
  exact ⟨hr, h.1, by decide, by decide, by decide, h.2.2.2.2.1, h.2.2.2.2.2⟩

end ThreadPool
